import Mathlib

/-!
# Verification of the Cashense cashbook persistence core

A shallow embedding, in Lean 4, of the data-management core of the
`cashense-simplified` repository:

* `src/models.py` — the `Cashbook` record with its validation
  (`__post_init__`) and its dictionary (de)serialization
  (`to_dict` / `from_dict`, timestamps encoded as ISO-8601 strings);
* `src/cashbook_manager.py` — the `CashbookManager` persistence store:
  CRUD operations, the materialized `CashbookMetadata`, the
  corruption-recovery flow of `_load_data` / `_handle_corrupted_data`;
* `src/performance_manager.py` — the `LazyLoader` cache, the paginated
  and search queries of `PerformanceOptimizedManager`, and the
  `PerformanceMonitor` metric bookkeeping.

Modelling conventions:

* Python `datetime` values are modelled by `PyDateTime`, a record of the
  seven calendar components; `datetime.isoformat` and
  `datetime.fromisoformat` (only the fragment of the stdlib the
  repository exercises: parsing back the exact strings `isoformat`
  produces) are modelled by `PyDateTime.isoformat` /
  `PyDateTime.fromisoformat`.
* Python `dict` objects (which preserve insertion order and have unique
  keys) are modelled by association lists `List (String × α)` with
  `dictGet` / `dictSet` / `dictDel`.
* Python `float` amounts are never computed with — only stored and
  compared — so `total_amount` is modelled by `Rat`.
* Exceptions are modelled by `Except PyError`; a Python method that
  mutates `self` and may raise is modelled as a function returning the
  post-call state *together with* the outcome, since a raised exception
  does not undo mutations already performed.
* Disk I/O success is a Boolean parameter (`saveOk`) of each mutating
  operation: it tells whether the `_save_data` call inside the
  operation succeeds or raises.
-/

deriving instance DecidableEq for Except

/-- Python exception values, restricted to the kinds the core raises. -/
inductive PyError where
  | valueError (msg : String)
  | fileOperationError (msg : String)
  | dataCorruptionError (msg : String)
  | zeroDivisionError
  deriving DecidableEq, Repr

/-- A Python `datetime.datetime` value: seven calendar components.
Comparison of datetimes is lexicographic on the components, which
matches Python for the in-range values the program constructs. -/
structure PyDateTime where
  year : Nat
  month : Nat
  day : Nat
  hour : Nat
  minute : Nat
  second : Nat
  microsecond : Nat
  deriving DecidableEq, Repr

/-- Lexicographic `≤` on equal-length lists of naturals (the order
Python uses componentwise on `datetime` tuples). -/
def lexLe : List Nat → List Nat → Bool
  | [], _ => true
  | _ :: _, [] => false
  | a :: as, b :: bs => if a < b then true else if a = b then lexLe as bs else false

/-- The component tuple of a datetime, most significant first. -/
def PyDateTime.key (d : PyDateTime) : List Nat :=
  [d.year, d.month, d.day, d.hour, d.minute, d.second, d.microsecond]

/-- `d ≤ e` as Python compares `datetime` values. -/
def PyDateTime.le (d e : PyDateTime) : Bool :=
  lexLe d.key e.key

/-- Decimal digit characters of `n`, most significant first (the
characters of Python `str(n)`, except that `n = 0` renders as `[]`,
which is only ever used zero-padded below). -/
def natChars (n : Nat) : List Char :=
  ((Nat.digits 10 n).map Nat.digitChar).reverse

/-- `n` rendered zero-padded to (at least) `w` characters — the `%0Nd`
formatting `datetime.isoformat` uses for each component. -/
def padChars (w n : Nat) : List Char :=
  List.replicate (w - (natChars n).length) '0' ++ natChars n

/-- Numeric value of a digit character. -/
def charVal (c : Char) : Nat := c.toNat - 48

/-- Read a maximal run of decimal digits from the front of `cs`,
returning its value and the rest of the input. -/
def readNum (cs : List Char) : Nat × List Char :=
  (Nat.ofDigits 10 (((cs.takeWhile Char.isDigit).map charVal).reverse),
   cs.dropWhile Char.isDigit)

/-- `datetime.isoformat`: `YYYY-MM-DDTHH:MM:SS`, with `.ffffff`
appended exactly when the microsecond component is nonzero. -/
def PyDateTime.isoformat (d : PyDateTime) : List Char :=
  padChars 4 d.year ++ '-' :: padChars 2 d.month ++ '-' :: padChars 2 d.day ++
    'T' :: padChars 2 d.hour ++ ':' :: padChars 2 d.minute ++ ':' :: padChars 2 d.second ++
    (if d.microsecond = 0 then [] else '.' :: padChars 6 d.microsecond)

/-- Consume one expected delimiter character. -/
def expectChar (c : Char) : List Char → Option (List Char)
  | [] => none
  | x :: xs => if x = c then some xs else none

/-- Parse the optional `.ffffff` tail after the seconds component. -/
def parseFraction (y mo da h mi s : Nat) : List Char → Option PyDateTime
  | [] => some ⟨y, mo, da, h, mi, s, 0⟩
  | '.' :: r =>
    if (readNum r).2 = [] then some ⟨y, mo, da, h, mi, s, (readNum r).1⟩ else none
  | _ => none

/-- `datetime.fromisoformat`, on the grammar `isoformat` emits: seven
delimiter-separated decimal components, the fractional part optional. -/
def PyDateTime.fromisoformat (cs : List Char) : Option PyDateTime :=
  (expectChar '-' (readNum cs).2).bind fun r1 =>
  (expectChar '-' (readNum r1).2).bind fun r3 =>
  (expectChar 'T' (readNum r3).2).bind fun r5 =>
  (expectChar ':' (readNum r5).2).bind fun r7 =>
  (expectChar ':' (readNum r7).2).bind fun r9 =>
  parseFraction (readNum cs).1 (readNum r1).1 (readNum r3).1 (readNum r5).1
    (readNum r7).1 (readNum r9).1 (readNum r9).2

section IsoRoundTrip

/-- Every character a padded component renders to is a decimal digit. -/
theorem padChars_isDigit {w n : Nat} {c : Char} (hc : c ∈ padChars w n) :
    c.isDigit = true := by
  rcases List.mem_append.mp hc with h | h
  · rw [List.eq_of_mem_replicate h]; decide
  · rcases List.mem_reverse.mp h with h
    rcases List.mem_map.mp h with ⟨d, hd, rfl⟩
    have h10 : d < 10 := Nat.digits_lt_base (by norm_num) hd
    interval_cases d <;> decide

theorem charVal_digitChar {d : Nat} (h : d < 10) : charVal (Nat.digitChar d) = d := by
  interval_cases d <;> decide

/-- `takeWhile` runs past a prefix all of whose members satisfy `p`. -/
theorem takeWhile_append_of_forall {p : Char → Bool} {xs rest : List Char}
    (hxs : ∀ c ∈ xs, p c = true) :
    (xs ++ rest).takeWhile p = xs ++ rest.takeWhile p := by
  induction xs with
  | nil => simp
  | cons x xs ih =>
    have hx : p x = true := hxs x (List.mem_cons_self x xs)
    simp [List.takeWhile_cons, hx, ih fun c hc => hxs c (List.mem_cons_of_mem x hc)]

theorem dropWhile_append_of_forall {p : Char → Bool} {xs rest : List Char}
    (hxs : ∀ c ∈ xs, p c = true) :
    (xs ++ rest).dropWhile p = rest.dropWhile p := by
  induction xs with
  | nil => simp
  | cons x xs ih =>
    have hx : p x = true := hxs x (List.mem_cons_self x xs)
    simp [List.dropWhile_cons, hx, ih fun c hc => hxs c (List.mem_cons_of_mem x hc)]

theorem ofDigits_replicate_zero (k : Nat) : Nat.ofDigits 10 (List.replicate k 0) = 0 := by
  induction k with
  | zero => rfl
  | succ k ih => simp [List.replicate_succ, Nat.ofDigits_cons, ih]

/-- Parsing the digit characters of a padded component recovers its value. -/
theorem ofDigits_padChars (w n : Nat) :
    Nat.ofDigits 10 (((padChars w n).map charVal).reverse) = n := by
  have hmap : (natChars n).map charVal = ((Nat.digits 10 n).map Nat.digitChar).reverse.map charVal := rfl
  have hdigits : ((Nat.digits 10 n).map Nat.digitChar).map charVal = Nat.digits 10 n := by
    rw [List.map_map]
    refine List.map_congr_left (fun d hd => ?_) |>.trans (List.map_id _)
    exact charVal_digitChar (Nat.digits_lt_base (by norm_num) hd)
  calc Nat.ofDigits 10 (((padChars w n).map charVal).reverse)
      = Nat.ofDigits 10 ((Nat.digits 10 n) ++
          List.replicate (w - (natChars n).length) 0) := by
        rw [padChars, List.map_append, List.reverse_append, hmap, ← List.map_reverse,
          List.reverse_reverse, hdigits]
        congr 1
        simp [List.map_replicate, charVal]
    _ = n := by
        rw [Nat.ofDigits_append, ofDigits_replicate_zero, Nat.ofDigits_digits]
        ring

/-- `readNum` on a padded component followed by a non-digit (or nothing)
returns the component's value and leaves the rest untouched. -/
theorem readNum_padChars (w n : Nat) (rest : List Char)
    (hrest : ∀ c, rest.head? = some c → c.isDigit = false) :
    readNum (padChars w n ++ rest) = (n, rest) := by
  have hall : ∀ c ∈ padChars w n, c.isDigit = true := fun c hc => padChars_isDigit hc
  have htake : rest.takeWhile Char.isDigit = [] := by
    cases rest with
    | nil => rfl
    | cons r rs => simp [List.takeWhile_cons, hrest r rfl]
  have hdrop : rest.dropWhile Char.isDigit = rest := by
    cases rest with
    | nil => rfl
    | cons r rs => simp [List.dropWhile_cons, hrest r rfl]
  rw [readNum, takeWhile_append_of_forall hall, dropWhile_append_of_forall hall,
    htake, hdrop, List.append_nil, ofDigits_padChars]

theorem readNum_pad_dash (w n : Nat) (rest : List Char) :
    readNum (padChars w n ++ '-' :: rest) = (n, '-' :: rest) :=
  readNum_padChars w n _ (by intro c hc; cases hc; decide)

theorem readNum_pad_T (w n : Nat) (rest : List Char) :
    readNum (padChars w n ++ 'T' :: rest) = (n, 'T' :: rest) :=
  readNum_padChars w n _ (by intro c hc; cases hc; decide)

theorem readNum_pad_colon (w n : Nat) (rest : List Char) :
    readNum (padChars w n ++ ':' :: rest) = (n, ':' :: rest) :=
  readNum_padChars w n _ (by intro c hc; cases hc; decide)

theorem readNum_pad_dot (w n : Nat) (rest : List Char) :
    readNum (padChars w n ++ '.' :: rest) = (n, '.' :: rest) :=
  readNum_padChars w n _ (by intro c hc; cases hc; decide)

theorem readNum_pad_nil (w n : Nat) : readNum (padChars w n) = (n, []) := by
  have := readNum_padChars w n [] (by intro c hc; cases hc)
  simpa using this

/-- The ISO-8601 round trip: `fromisoformat` recovers exactly the
datetime `isoformat` rendered. -/
theorem fromisoformat_isoformat (d : PyDateTime) :
    PyDateTime.fromisoformat d.isoformat = some d := by
  obtain ⟨y, mo, da, h, mi, s, us⟩ := d
  rw [PyDateTime.isoformat]
  by_cases hus : us = 0
  · subst hus
    simp [PyDateTime.fromisoformat, readNum_pad_dash, readNum_pad_T, readNum_pad_colon,
      readNum_pad_nil, expectChar, parseFraction, Option.bind]
  · simp [PyDateTime.fromisoformat, hus, readNum_pad_dash, readNum_pad_T, readNum_pad_colon,
      readNum_pad_dot, readNum_pad_nil, expectChar, parseFraction, Option.bind]

end IsoRoundTrip

/-! ## The record model (`src/models.py`) -/

/-- The whitespace characters `str.strip()` removes (the ASCII ones;
the repository only ever strips spaces). -/
def isPySpace (c : Char) : Bool :=
  c = ' ' || c = '\t' || c = '\n' || c = '\r' || c = '\x0b' || c = '\x0c'

def pyStripChars (cs : List Char) : List Char :=
  ((cs.dropWhile isPySpace).reverse.dropWhile isPySpace).reverse

/-- Python `str.strip()`. -/
def pyStrip (s : String) : String := ⟨pyStripChars s.data⟩

/-- The `Cashbook` dataclass. `total_amount` (a Python float that is
only stored, never computed with) is modelled by `Rat`. -/
structure Cashbook where
  id : String
  name : String
  description : String
  category : String
  created_date : PyDateTime
  last_modified : PyDateTime
  entry_count : Int
  total_amount : Rat
  icon_color : String
  deriving DecidableEq, Repr

/-- `Cashbook.__post_init__`: validation plus the final
`self.name = self.name.strip()`.  Returns the record as the constructor
leaves it, or the `ValueError` it raises. -/
def Cashbook.post_init (cb : Cashbook) : Except PyError Cashbook :=
  if cb.name = "" ∨ pyStrip cb.name = "" then
    .error (.valueError "Cashbook name cannot be empty")
  else if 100 < (pyStrip cb.name).length then
    .error (.valueError "Cashbook name cannot exceed 100 characters")
  else if cb.entry_count < 0 then
    .error (.valueError "Entry count cannot be negative")
  else
    .ok { cb with name := pyStrip cb.name }

/-- The dictionary produced by `Cashbook.to_dict`: same fields, with the
two timestamps encoded as ISO-8601 character strings. -/
structure CashbookDict where
  id : String
  name : String
  description : String
  category : String
  created_date : List Char
  last_modified : List Char
  entry_count : Int
  total_amount : Rat
  icon_color : String
  deriving DecidableEq, Repr

/-- `Cashbook.to_dict`. -/
def Cashbook.to_dict (cb : Cashbook) : CashbookDict :=
  { id := cb.id, name := cb.name, description := cb.description, category := cb.category,
    created_date := cb.created_date.isoformat, last_modified := cb.last_modified.isoformat,
    entry_count := cb.entry_count, total_amount := cb.total_amount,
    icon_color := cb.icon_color }

/-- `Cashbook.from_dict`: parse the two timestamps back, then run the
dataclass constructor (hence `__post_init__` validation). -/
def Cashbook.from_dict (d : CashbookDict) : Except PyError Cashbook :=
  match PyDateTime.fromisoformat d.created_date, PyDateTime.fromisoformat d.last_modified with
  | some cd, some lm =>
      Cashbook.post_init
        ⟨d.id, d.name, d.description, d.category, cd, lm,
         d.entry_count, d.total_amount, d.icon_color⟩
  | _, _ => .error (.valueError "Invalid isoformat string")

/-- C4: for every valid `Cashbook` — one the validating constructor
admits as-is, i.e. `post_init` returns it unchanged — `from_dict`
applied to `to_dict` reproduces the record exactly, every field
including both timestamps (full microsecond precision, hence in
particular second precision). -/
theorem cashbook_from_dict_to_dict_roundtrip (cb : Cashbook)
    (h : cb.post_init = .ok cb) :
    Cashbook.from_dict cb.to_dict = .ok cb := by
  rw [Cashbook.from_dict, Cashbook.to_dict]
  simp only [fromisoformat_isoformat]
  exact h

/-- C4 witness: the round trip at a concrete valid record (with a
nonzero microsecond component exercising the fractional encoding). -/
theorem cashbook_roundtrip_witness :
    (Cashbook.post_init
        ⟨"b7f1", "Groceries", "weekly food", "Personal",
         ⟨2024, 1, 2, 3, 4, 5, 0⟩, ⟨2024, 1, 2, 3, 4, 6, 123456⟩, 0, 0, "#3B82F6"⟩ =
      .ok ⟨"b7f1", "Groceries", "weekly food", "Personal",
         ⟨2024, 1, 2, 3, 4, 5, 0⟩, ⟨2024, 1, 2, 3, 4, 6, 123456⟩, 0, 0, "#3B82F6"⟩) ∧
    Cashbook.from_dict
        (Cashbook.to_dict
          ⟨"b7f1", "Groceries", "weekly food", "Personal",
           ⟨2024, 1, 2, 3, 4, 5, 0⟩, ⟨2024, 1, 2, 3, 4, 6, 123456⟩, 0, 0, "#3B82F6"⟩) =
      .ok ⟨"b7f1", "Groceries", "weekly food", "Personal",
         ⟨2024, 1, 2, 3, 4, 5, 0⟩, ⟨2024, 1, 2, 3, 4, 6, 123456⟩, 0, 0, "#3B82F6"⟩ :=
  ⟨by decide, cashbook_from_dict_to_dict_roundtrip _ (by decide)⟩

/-- A convenient record builder used by concrete examples: all fields
except the interesting ones are fixed harmless values. -/
def sampleRecord (nm : String) (ec : Int) : Cashbook :=
  ⟨"sample-id", nm, "", "", ⟨2024, 1, 1, 0, 0, 0, 0⟩, ⟨2024, 1, 1, 0, 0, 0, 0⟩,
   ec, 0, "#3B82F6"⟩

theorem pyStrip_empty : pyStrip "" = "" := rfl

theorem pyStrip_length_eq_zero {s : String} (h : pyStrip s = "") :
    (pyStrip s).length = 0 := by rw [h]; rfl

/-- C8: `__post_init__` validation, exactly as the spec enumerates it.
The constructor (and hence `update_cashbook`, which re-runs
`__post_init__` after applying field changes) rejects the empty name,
the all-whitespace name, every name whose stripped length exceeds 100,
and `entry_count = -1`; it accepts every record whose stripped name
has length 100 or length 2 as long as `entry_count` is non-negative. -/
theorem post_init_validation :
    (∀ cb : Cashbook, cb.name = "" →
      ∃ m, cb.post_init = .error (.valueError m)) ∧
    (∀ cb : Cashbook, cb.name = "   " →
      ∃ m, cb.post_init = .error (.valueError m)) ∧
    (∀ cb : Cashbook, 100 < (pyStrip cb.name).length →
      ∃ m, cb.post_init = .error (.valueError m)) ∧
    (∀ cb : Cashbook, cb.entry_count = -1 →
      ∃ m, cb.post_init = .error (.valueError m)) ∧
    (∀ cb : Cashbook, (pyStrip cb.name).length = 100 → 0 ≤ cb.entry_count →
      cb.post_init = .ok { cb with name := pyStrip cb.name }) ∧
    (∀ cb : Cashbook, (pyStrip cb.name).length = 2 → 0 ≤ cb.entry_count →
      cb.post_init = .ok { cb with name := pyStrip cb.name }) := by
  refine ⟨?_, ?_, ?_, ?_, ?_, ?_⟩
  · intro cb h
    exact ⟨_, by rw [Cashbook.post_init, if_pos (Or.inl h)]⟩
  · intro cb h
    have hs : pyStrip cb.name = "" := by rw [h]; decide
    exact ⟨_, by rw [Cashbook.post_init, if_pos (Or.inr hs)]⟩
  · intro cb h
    by_cases h0 : cb.name = "" ∨ pyStrip cb.name = ""
    · exact ⟨_, by rw [Cashbook.post_init, if_pos h0]⟩
    · exact ⟨_, by rw [Cashbook.post_init, if_neg h0, if_pos h]⟩
  · intro cb h
    by_cases h0 : cb.name = "" ∨ pyStrip cb.name = ""
    · exact ⟨_, by rw [Cashbook.post_init, if_pos h0]⟩
    · by_cases h1 : 100 < (pyStrip cb.name).length
      · exact ⟨_, by rw [Cashbook.post_init, if_neg h0, if_pos h1]⟩
      · refine ⟨_, by rw [Cashbook.post_init, if_neg h0, if_neg h1, if_pos ?_]; rw [h]; decide⟩
  · intro cb hlen hec
    have h0 : ¬(cb.name = "" ∨ pyStrip cb.name = "") := by
      rintro (h | h)
      · rw [h] at hlen; simp [pyStrip_empty] at hlen
      · rw [pyStrip_length_eq_zero h] at hlen; omega
    rw [Cashbook.post_init, if_neg h0, if_neg (by omega), if_neg (by omega)]
  · intro cb hlen hec
    have h0 : ¬(cb.name = "" ∨ pyStrip cb.name = "") := by
      rintro (h | h)
      · rw [h] at hlen; simp [pyStrip_empty] at hlen
      · rw [pyStrip_length_eq_zero h] at hlen; omega
    rw [Cashbook.post_init, if_neg h0, if_neg (by omega), if_neg (by omega)]

/-- A name made of `n` copies of `a`. -/
def aName (n : Nat) : String := ⟨List.replicate n 'a'⟩

/-- C8 witness: each clause of `post_init_validation` applied at a
concrete input (a 101-character and a 100-character name among them). -/
theorem post_init_validation_witness :
    (∃ m, (sampleRecord "" 0).post_init = .error (.valueError m)) ∧
    (∃ m, (sampleRecord "   " 0).post_init = .error (.valueError m)) ∧
    (∃ m, (sampleRecord (aName 101) 0).post_init = .error (.valueError m)) ∧
    (∃ m, (sampleRecord "Books" (-1)).post_init = .error (.valueError m)) ∧
    ((sampleRecord (aName 100) 0).post_init = .ok (sampleRecord (aName 100) 0)) ∧
    ((sampleRecord "ab" 0).post_init = .ok (sampleRecord "ab" 0)) := by
  obtain ⟨h1, h2, h3, h4, h5, h6⟩ := post_init_validation
  refine ⟨h1 _ rfl, h2 _ rfl, h3 _ (by decide), h4 _ rfl, ?_, ?_⟩
  · have := h5 (sampleRecord (aName 100) 0) (by decide) (by decide)
    exact this.trans (by decide)
  · have := h6 (sampleRecord "ab" 0) (by decide) (by decide)
    exact this.trans (by decide)

/-! ## The persistence store (`src/cashbook_manager.py`)

Python `dict` objects preserve insertion order and have unique keys;
they are modelled by association lists.  `dictSet` replaces the value
in place when the key exists (keeping its position, as Python does) and
appends otherwise; `dictDel` removes the (unique) entry with the key. -/

def dictGet {α : Type} (m : List (String × α)) (k : String) : Option α :=
  match m with
  | [] => none
  | (k1, v) :: rest => if k1 = k then some v else dictGet rest k

def dictSet {α : Type} (m : List (String × α)) (k : String) (v : α) : List (String × α) :=
  match m with
  | [] => [(k, v)]
  | (k1, v1) :: rest => if k1 = k then (k, v) :: rest else (k1, v1) :: dictSet rest k v

def dictDel {α : Type} (m : List (String × α)) (k : String) : List (String × α) :=
  match m with
  | [] => []
  | (k1, v1) :: rest => if k1 = k then rest else (k1, v1) :: dictDel rest k

/-- Python `list.remove(x)`: drop the first occurrence of `x`. -/
def pyRemove (x : String) : List String → List String
  | [] => []
  | y :: ys => if y = x then ys else y :: pyRemove x ys

/-- The `CashbookMetadata` dataclass. -/
structure CashbookMetadata where
  total_cashbooks : Nat
  recent_activity : List String
  categories : List String
  last_backup : Option PyDateTime
  deriving DecidableEq, Repr

/-- The defaults of the dataclass fields. -/
def CashbookMetadata.default : CashbookMetadata := ⟨0, [], [], none⟩

/-- A stable-insertion sort (Python `sorted` is stable; for the string
category list the order is plain `≤`, for `get_all_cashbooks` the
comparator below encodes `key=last_modified, reverse=True`). -/
def insertSorted {α : Type} (le : α → α → Bool) (x : α) : List α → List α
  | [] => [x]
  | y :: ys => if le x y then x :: y :: ys else y :: insertSorted le x ys

def insertionSort {α : Type} (le : α → α → Bool) : List α → List α
  | [] => []
  | x :: xs => insertSorted le x (insertionSort le xs)

/-- `sorted(list(set(...)))` over the non-empty categories: dedup
(keeping first occurrences) then sort ascending. -/
def sortedCategories (cbs : List (String × Cashbook)) : List String :=
  insertionSort (fun a b => a ≤ b)
    (((cbs.map (fun kv => kv.2.category)).filter (fun c => c ≠ "")).dedup)

/-- The in-memory state of a `CashbookManager`: the `_cashbooks` dict
and the `_metadata` object. -/
structure ManagerState where
  cashbooks : List (String × Cashbook)
  metadata : CashbookMetadata
  deriving DecidableEq, Repr

/-- `CashbookManager._update_metadata`: recompute `total_cashbooks` and
`categories` from the live records and filter `recent_activity` down to
IDs that still exist. -/
def updateMetadata (s : ManagerState) : ManagerState :=
  { s with metadata :=
    { s.metadata with
      total_cashbooks := s.cashbooks.length
      categories := sortedCategories s.cashbooks
      recent_activity :=
        s.metadata.recent_activity.filter (fun i => (dictGet s.cashbooks i).isSome) } }

/-- The record `create_cashbook` builds before validation (defaults of
the remaining dataclass fields filled in). -/
def newCashbook (cashbook_id name description category : String) (now : PyDateTime) :
    Cashbook :=
  ⟨cashbook_id, name, description, category, now, now, 0, 0, "#3B82F6"⟩

/-- `CashbookManager.create_cashbook`.  `cashbook_id` stands for the
fresh UUID `generate_cashbook_id()` returned, `now` for the calls to
`datetime.now()`, and `saveOk` for whether `_save_data` succeeds.  The
result is the post-call in-memory state together with the outcome
(the created record, or the exception raised). -/
def create_cashbook (s : ManagerState) (name description category : String)
    (cashbook_id : String) (now : PyDateTime) (saveOk : Bool) :
    ManagerState × Except PyError Cashbook :=
  match (newCashbook cashbook_id name description category now).post_init with
  | .error e => (s, .error e)
  | .ok cashbook =>
    let s1 : ManagerState := { s with cashbooks := dictSet s.cashbooks cashbook_id cashbook }
    let ra0 := s1.metadata.recent_activity
    let ra1 := if cashbook_id ∈ ra0 then pyRemove cashbook_id ra0 else ra0
    let ra2 := (cashbook_id :: ra1).take 10
    let s2 := updateMetadata { s1 with metadata := { s1.metadata with recent_activity := ra2 } }
    if saveOk then (s2, .ok cashbook)
    else
      -- rollback: delete the new record, drop it from recent activity,
      -- recompute metadata, re-raise as FileOperationError
      let s3 : ManagerState := { s2 with cashbooks := dictDel s2.cashbooks cashbook_id }
      let ra3 := if cashbook_id ∈ s3.metadata.recent_activity then
          pyRemove cashbook_id s3.metadata.recent_activity
        else s3.metadata.recent_activity
      let s4 := updateMetadata { s3 with metadata := { s3.metadata with recent_activity := ra3 } }
      (s4, .error (.fileOperationError "Failed to save cashbook data"))

/-- The keyword arguments of `update_cashbook(id, **kwargs)`: each real
attribute either absent or set to a value.  Keys that are not
attributes of `Cashbook` fail the `hasattr` test in the source and are
ignored, so they need no representation. -/
structure FieldChanges where
  id : Option String := none
  name : Option String := none
  description : Option String := none
  category : Option String := none
  created_date : Option PyDateTime := none
  last_modified : Option PyDateTime := none
  entry_count : Option Int := none
  total_amount : Option Rat := none
  icon_color : Option String := none
  deriving DecidableEq, Repr

/-- The `setattr` loop of `update_cashbook`. -/
def applyChanges (cb : Cashbook) (ch : FieldChanges) : Cashbook :=
  { id := ch.id.getD cb.id
    name := ch.name.getD cb.name
    description := ch.description.getD cb.description
    category := ch.category.getD cb.category
    created_date := ch.created_date.getD cb.created_date
    last_modified := ch.last_modified.getD cb.last_modified
    entry_count := ch.entry_count.getD cb.entry_count
    total_amount := ch.total_amount.getD cb.total_amount
    icon_color := ch.icon_color.getD cb.icon_color }

/-- `CashbookManager.update_cashbook`.  Mutation happens on the record
object held in the dict (Python mutates in place), so the partially
updated record is in the store *before* `__post_init__` re-validates;
a `ValueError` leaves it there. -/
def update_cashbook (s : ManagerState) (cashbook_id : String) (ch : FieldChanges)
    (now : PyDateTime) (saveOk : Bool) : ManagerState × Except PyError Bool :=
  match dictGet s.cashbooks cashbook_id with
  | none => (s, .ok false)
  | some cashbook =>
    let cb1 := { applyChanges cashbook ch with last_modified := now }
    let s1 : ManagerState := { s with cashbooks := dictSet s.cashbooks cashbook_id cb1 }
    match cb1.post_init with
    | .error e => (s1, .error e)
    | .ok cb2 =>
      -- __post_init__ also strips the name in place on success
      let s2 : ManagerState := { s1 with cashbooks := dictSet s1.cashbooks cashbook_id cb2 }
      let ra0 := s2.metadata.recent_activity
      let ra1 := if cashbook_id ∈ ra0 then pyRemove cashbook_id ra0 else ra0
      let ra2 := cashbook_id :: ra1    -- note: no truncation to 10 here
      let s3 := updateMetadata { s2 with metadata := { s2.metadata with recent_activity := ra2 } }
      if saveOk then (s3, .ok true)
      else (s3, .error (.fileOperationError "Failed to save cashbook updates"))

/-- `CashbookManager.delete_cashbook`. -/
def delete_cashbook (s : ManagerState) (cashbook_id : String) (saveOk : Bool) :
    ManagerState × Except PyError Bool :=
  match dictGet s.cashbooks cashbook_id with
  | none => (s, .ok false)
  | some _ =>
    let s1 : ManagerState := { s with cashbooks := dictDel s.cashbooks cashbook_id }
    let ra1 := if cashbook_id ∈ s1.metadata.recent_activity then
        pyRemove cashbook_id s1.metadata.recent_activity
      else s1.metadata.recent_activity
    let s2 := updateMetadata { s1 with metadata := { s1.metadata with recent_activity := ra1 } }
    if saveOk then (s2, .ok true)
    else (s2, .error (.fileOperationError "Failed to save after deleting cashbook"))

/-- `CashbookManager.get_cashbook`. -/
def get_cashbook (s : ManagerState) (cashbook_id : String) : Option Cashbook :=
  dictGet s.cashbooks cashbook_id

/-- `CashbookManager.get_recent_cashbooks`: records for the first
`limit` recent IDs, stale IDs silently skipped. -/
def get_recent_cashbooks (s : ManagerState) (limit : Nat) : List Cashbook :=
  (s.metadata.recent_activity.take limit).filterMap (dictGet s.cashbooks)

/-- The comparator of `sorted(..., key=lambda cb: cb.last_modified,
reverse=True)`: `a` comes no later than `b` in the output iff `b`'s
timestamp is `≤` `a`'s (stability keeps the original order of ties). -/
def newestFirst (a b : Cashbook) : Bool :=
  b.last_modified.le a.last_modified

/-- `CashbookManager.get_all_cashbooks`. -/
def get_all_cashbooks (s : ManagerState) : List Cashbook :=
  insertionSort newestFirst (s.cashbooks.map (fun kv => kv.2))

/-- `CashbookManager.get_metadata`. -/
def get_metadata (s : ManagerState) : CashbookMetadata := s.metadata

/-! ## Metadata consistency across operation sequences (C2) -/

/-- The metadata-consistency property the spec asserts (minus the
length cap, settled separately): the materialized count matches the
record map, and every recent-activity ID resolves to a live record. -/
def StoreInv (s : ManagerState) : Prop :=
  s.metadata.total_cashbooks = s.cashbooks.length ∧
  ∀ i ∈ s.metadata.recent_activity, (dictGet s.cashbooks i).isSome = true

/-- One mutating call on the store (`saveOk = true`: persistence
succeeds, as the claim's "successful operations" premise requires). -/
inductive StoreOp where
  | create (name description category cashbook_id : String) (now : PyDateTime)
  | update (cashbook_id : String) (ch : FieldChanges) (now : PyDateTime)
  | delete (cashbook_id : String)
  deriving Repr

/-- Run one operation; `none` when the call raises (an unsuccessful
call, excluded by the claim's premise). -/
def runOp (s : ManagerState) : StoreOp → Option ManagerState
  | .create n d c i now =>
    match create_cashbook s n d c i now true with
    | (s1, .ok _) => some s1
    | (_, .error _) => none
  | .update i ch now =>
    match update_cashbook s i ch now true with
    | (s1, .ok _) => some s1
    | (_, .error _) => none
  | .delete i =>
    match delete_cashbook s i true with
    | (s1, .ok _) => some s1
    | (_, .error _) => none

/-- Run a sequence of successful operations. -/
def runOps (s : ManagerState) : List StoreOp → Option ManagerState
  | [] => some s
  | op :: ops => (runOp s op).bind fun s1 => runOps s1 ops

/-- `_update_metadata` establishes the consistency property outright. -/
theorem storeInv_updateMetadata (s : ManagerState) : StoreInv (updateMetadata s) := by
  refine ⟨rfl, fun i hi => ?_⟩
  have := List.mem_filter.mp hi
  simpa using this.2

theorem runOp_storeInv {s s1 : ManagerState} {op : StoreOp}
    (hs : StoreInv s) (h : runOp s op = some s1) : StoreInv s1 := by
  cases op with
  | create n d c i now =>
    cases hpi : (newCashbook i n d c now).post_init with
    | error e => simp [runOp, create_cashbook, hpi] at h
    | ok cb =>
      simp [runOp, create_cashbook, hpi] at h
      exact h ▸ storeInv_updateMetadata _
  | update i ch now =>
    cases hg : dictGet s.cashbooks i with
    | none =>
      simp [runOp, update_cashbook, hg] at h
      exact h ▸ hs
    | some cb =>
      cases hpi : Cashbook.post_init { applyChanges cb ch with last_modified := now } with
      | error e => simp [runOp, update_cashbook, hg, hpi] at h
      | ok cb2 =>
        simp [runOp, update_cashbook, hg, hpi] at h
        exact h ▸ storeInv_updateMetadata _
  | delete i =>
    cases hg : dictGet s.cashbooks i with
    | none =>
      simp [runOp, delete_cashbook, hg] at h
      exact h ▸ hs
    | some cb =>
      simp [runOp, delete_cashbook, hg] at h
      exact h ▸ storeInv_updateMetadata _

theorem runOps_storeInv {s s1 : ManagerState} {ops : List StoreOp}
    (hs : StoreInv s) (h : runOps s ops = some s1) : StoreInv s1 := by
  induction ops generalizing s with
  | nil => rw [runOps] at h; cases h; exact hs
  | cons op ops ih =>
    rw [runOps] at h
    cases hop : runOp s op with
    | none => rw [hop] at h; simp at h
    | some s2 => rw [hop] at h; exact ih (runOp_storeInv hs hop) h

/-- C2 (amended): after any sequence of successful create/update/delete
calls starting from a store whose metadata has just been recomputed
(which is how every load path of `_load_data` leaves it),
`total_cashbooks` equals the number of live records and every
recent-activity ID resolves to a live record.  The 10-entry cap of the
original claim holds immediately after a `create` (which truncates) —
but not in general, because `update_cashbook` inserts into
`recent_activity` without truncating (see the counterexample). -/
theorem metadata_consistency_after_ops :
    (∀ (s0 s1 : ManagerState) (ops : List StoreOp),
      runOps (updateMetadata s0) ops = some s1 → StoreInv s1) ∧
    (∀ (s : ManagerState) (n d c i : String) (now : PyDateTime) (s1 : ManagerState),
      runOp s (.create n d c i now) = some s1 →
      s1.metadata.recent_activity.length ≤ 10) := by
  constructor
  · intro s0 s1 ops h
    exact runOps_storeInv (storeInv_updateMetadata s0) h
  · intro s n d c i now s1 h
    cases hpi : (newCashbook i n d c now).post_init with
    | error e => simp [runOp, create_cashbook, hpi] at h
    | ok cb =>
      simp [runOp, create_cashbook, hpi] at h
      rw [← h]
      refine le_trans (List.length_filter_le _ _) ?_
      have := List.length_take_le 9
        (if i ∈ s.metadata.recent_activity then pyRemove i s.metadata.recent_activity
         else s.metadata.recent_activity)
      simp only [List.length_cons]
      omega

/-- The fresh, empty store state (a newly constructed manager pointed
at an empty directory). -/
def freshStore : ManagerState := ⟨[], CashbookMetadata.default⟩

/-- Eleven creates (distinct fresh IDs) followed by one update of the
oldest record. -/
def elevenCreatesThenUpdate : List StoreOp :=
  [StoreOp.create "Book" "" "" "a" ⟨2024, 1, 1, 0, 0, 0, 0⟩,
   StoreOp.create "Book" "" "" "b" ⟨2024, 1, 1, 0, 0, 1, 0⟩,
   StoreOp.create "Book" "" "" "c" ⟨2024, 1, 1, 0, 0, 2, 0⟩,
   StoreOp.create "Book" "" "" "d" ⟨2024, 1, 1, 0, 0, 3, 0⟩,
   StoreOp.create "Book" "" "" "e" ⟨2024, 1, 1, 0, 0, 4, 0⟩,
   StoreOp.create "Book" "" "" "f" ⟨2024, 1, 1, 0, 0, 5, 0⟩,
   StoreOp.create "Book" "" "" "g" ⟨2024, 1, 1, 0, 0, 6, 0⟩,
   StoreOp.create "Book" "" "" "h" ⟨2024, 1, 1, 0, 0, 7, 0⟩,
   StoreOp.create "Book" "" "" "i" ⟨2024, 1, 1, 0, 0, 8, 0⟩,
   StoreOp.create "Book" "" "" "j" ⟨2024, 1, 1, 0, 0, 9, 0⟩,
   StoreOp.create "Book" "" "" "k" ⟨2024, 1, 1, 0, 0, 10, 0⟩,
   StoreOp.update "a" {} ⟨2024, 1, 1, 0, 0, 11, 0⟩]

/-- C2 counterexample: eleven successful creates push the first ID out
of the capped recent-activity list; a successful update of that record
then re-inserts it without truncating, leaving 11 > 10 entries. -/
theorem recent_activity_cap_counterexample :
    (runOps freshStore elevenCreatesThenUpdate).map
        (fun s => s.metadata.recent_activity.length) = some 11 ∧ 10 < 11 := by
  constructor
  · decide
  · decide

/-- The state reached by one successful create on the fresh store. -/
def oneCreateState : ManagerState :=
  ⟨[("id1", ⟨"id1", "Food", "", "", ⟨2024, 1, 1, 0, 0, 0, 0⟩, ⟨2024, 1, 1, 0, 0, 0, 0⟩,
      0, 0, "#3B82F6"⟩)],
   ⟨1, ["id1"], [], none⟩⟩

/-- C2 witness: the amended consistency theorem applied to a concrete
one-create run from the fresh store. -/
theorem metadata_consistency_witness :
    StoreInv oneCreateState ∧ oneCreateState.metadata.recent_activity.length ≤ 10 :=
  ⟨metadata_consistency_after_ops.1 freshStore oneCreateState
      [StoreOp.create "Food" "" "" "id1" ⟨2024, 1, 1, 0, 0, 0, 0⟩] (by decide),
   metadata_consistency_after_ops.2 freshStore "Food" "" "" "id1" ⟨2024, 1, 1, 0, 0, 0, 0⟩
      oneCreateState (by decide)⟩

/-! ## Dict and list helper lemmas -/

theorem dictGet_dictSet_self {α : Type} (m : List (String × α)) (k : String) (v : α) :
    dictGet (dictSet m k v) k = some v := by
  induction m with
  | nil => simp [dictGet, dictSet]
  | cons kv rest ih =>
    obtain ⟨k1, v1⟩ := kv
    by_cases hk : k1 = k
    · simp [dictGet, dictSet, hk]
    · simp [dictGet, dictSet, hk, ih]

theorem dictSet_fresh {α : Type} {m : List (String × α)} {k : String}
    (h : dictGet m k = none) (v : α) : dictSet m k v = m ++ [(k, v)] := by
  induction m with
  | nil => rfl
  | cons kv rest ih =>
    obtain ⟨k1, v1⟩ := kv
    rw [dictGet] at h
    by_cases hk : k1 = k
    · simp [hk] at h
    · rw [dictSet]
      simp only [if_neg hk, List.cons_append, List.cons.injEq, true_and]
      exact ih (by simpa [hk] using h)

theorem dictDel_append_fresh {α : Type} {m : List (String × α)} {k : String}
    (h : dictGet m k = none) (v : α) : dictDel (m ++ [(k, v)]) k = m := by
  induction m with
  | nil => simp [dictDel]
  | cons kv rest ih =>
    obtain ⟨k1, v1⟩ := kv
    rw [dictGet] at h
    by_cases hk : k1 = k
    · simp [hk] at h
    · rw [List.cons_append, dictDel]
      simp only [if_neg hk, List.cons.injEq, true_and]
      exact ih (by simpa [hk] using h)

theorem dictGet_append_fresh {α : Type} {m : List (String × α)} {k : String}
    (h : dictGet m k = none) (v : α) : dictGet (m ++ [(k, v)]) k = some v := by
  induction m with
  | nil => simp [dictGet]
  | cons kv rest ih =>
    obtain ⟨k1, v1⟩ := kv
    rw [dictGet] at h
    by_cases hk : k1 = k
    · simp [hk] at h
    · rw [List.cons_append, dictGet]
      simp only [if_neg hk]
      exact ih (by simpa [hk] using h)

theorem dictGet_append_of_isSome {α : Type} {m : List (String × α)} {k : String}
    (h : (dictGet m k).isSome = true) (l : List (String × α)) :
    dictGet (m ++ l) k = dictGet m k := by
  induction m with
  | nil => simp [dictGet] at h
  | cons kv rest ih =>
    obtain ⟨k1, v1⟩ := kv
    rw [dictGet] at h
    by_cases hk : k1 = k
    · simp [dictGet, hk]
    · rw [List.cons_append, dictGet, dictGet]
      simp only [if_neg hk]
      exact ih (by simpa [hk] using h)

theorem pyRemove_cons_self (i : String) (l : List String) :
    pyRemove i (i :: l) = l := by
  simp [pyRemove]

/-- The success shape of `__post_init__`: the record returned is the
input with the name stripped. -/
theorem post_init_ok_eq {cb cb3 : Cashbook} (h : cb.post_init = .ok cb3) :
    cb3 = { cb with name := pyStrip cb.name } := by
  rw [Cashbook.post_init] at h
  split at h
  · cases h
  · split at h
    · cases h
    · split at h
      · cases h
      · cases h; rfl

/-! ## Update characterization (C3, C6) -/

theorem update_cashbook_not_found {s : ManagerState} {cashbook_id : String}
    (h : dictGet s.cashbooks cashbook_id = none) (ch : FieldChanges) (now : PyDateTime)
    (saveOk : Bool) :
    update_cashbook s cashbook_id ch now saveOk = (s, .ok false) := by
  simp [update_cashbook, h]

/-- When re-validation fails, `update_cashbook` surfaces the
`ValueError` — but the partially updated record is already installed in
the store, and `_save_data` is never reached (the outcome does not
depend on `saveOk`). -/
theorem update_cashbook_invalid {s : ManagerState} {cashbook_id : String} {cb : Cashbook}
    {ch : FieldChanges} {now : PyDateTime} {e : PyError}
    (hg : dictGet s.cashbooks cashbook_id = some cb)
    (hpi : Cashbook.post_init { applyChanges cb ch with last_modified := now } = .error e)
    (saveOk : Bool) :
    update_cashbook s cashbook_id ch now saveOk =
      ({ s with cashbooks :=
          dictSet s.cashbooks cashbook_id { applyChanges cb ch with last_modified := now } },
       .error e) := by
  simp [update_cashbook, hg, hpi]

theorem update_cashbook_valid {s : ManagerState} {cashbook_id : String} {cb cb3 : Cashbook}
    {ch : FieldChanges} {now : PyDateTime}
    (hg : dictGet s.cashbooks cashbook_id = some cb)
    (hpi : Cashbook.post_init { applyChanges cb ch with last_modified := now } = .ok cb3)
    (saveOk : Bool) :
    update_cashbook s cashbook_id ch now saveOk =
      (updateMetadata
        { cashbooks :=
            dictSet (dictSet s.cashbooks cashbook_id
              { applyChanges cb ch with last_modified := now }) cashbook_id cb3
          metadata :=
            { s.metadata with recent_activity :=
                cashbook_id ::
                  (if cashbook_id ∈ s.metadata.recent_activity then
                    pyRemove cashbook_id s.metadata.recent_activity
                  else s.metadata.recent_activity) } },
       if saveOk then .ok true
       else .error (.fileOperationError "Failed to save cashbook updates")) := by
  cases saveOk <;> simp [update_cashbook, hg, hpi]

/-- Single-call frame property: an update whose field changes do not
name `id` or `created_date` leaves both unchanged on the stored record
(whatever the outcome — success, validation failure, or save failure). -/
theorem update_cashbook_frame {s : ManagerState} {cashbook_id : String} {cb : Cashbook}
    {ch : FieldChanges} (now : PyDateTime) (saveOk : Bool)
    (hid : ch.id = none) (hcd : ch.created_date = none)
    (hg : dictGet s.cashbooks cashbook_id = some cb) :
    ∃ cb1, dictGet (update_cashbook s cashbook_id ch now saveOk).1.cashbooks cashbook_id
        = some cb1 ∧ cb1.id = cb.id ∧ cb1.created_date = cb.created_date := by
  cases hpi : Cashbook.post_init { applyChanges cb ch with last_modified := now } with
  | error e =>
    rw [update_cashbook_invalid hg hpi saveOk]
    exact ⟨_, dictGet_dictSet_self _ _ _, by simp [applyChanges, hid],
      by simp [applyChanges, hcd]⟩
  | ok cb3 =>
    rw [update_cashbook_valid hg hpi saveOk]
    refine ⟨cb3, ?_, ?_, ?_⟩
    · show dictGet (dictSet (dictSet _ _ _) _ cb3) _ = some cb3
      exact dictGet_dictSet_self _ _ _
    · rw [post_init_ok_eq hpi]; simp [applyChanges, hid]
    · rw [post_init_ok_eq hpi]; simp [applyChanges, hcd]

/-- A sequence of `update_cashbook` calls on one ID (each with its own
field changes, `datetime.now()` value, and save outcome), threading the
in-memory state through exceptions as Python does. -/
def runUpdates (s : ManagerState) (cashbook_id : String) :
    List (FieldChanges × PyDateTime × Bool) → ManagerState
  | [] => s
  | (ch, now, saveOk) :: rest =>
    runUpdates (update_cashbook s cashbook_id ch now saveOk).1 cashbook_id rest

/-- C6 (amended): across every sequence of update calls whose field
changes do not themselves name `id` or `created_date`, the stored
record keeps the `id` and `created_date` assigned at creation.  (The
restriction is necessary: `update_cashbook` sets any real attribute
named in `kwargs`, including `id` and `created_date` — see the
counterexample.) -/
theorem update_never_changes_id_created_date
    (s : ManagerState) (cashbook_id : String) (cb : Cashbook)
    (calls : List (FieldChanges × PyDateTime × Bool))
    (hcalls : ∀ c ∈ calls, c.1.id = none ∧ c.1.created_date = none)
    (hg : dictGet s.cashbooks cashbook_id = some cb) :
    ∃ cb1, dictGet (runUpdates s cashbook_id calls).cashbooks cashbook_id = some cb1 ∧
      cb1.id = cb.id ∧ cb1.created_date = cb.created_date := by
  induction calls generalizing s cb with
  | nil => exact ⟨cb, hg, rfl, rfl⟩
  | cons c rest ih =>
    obtain ⟨ch, now, saveOk⟩ := c
    obtain ⟨hid, hcd⟩ := hcalls _ (List.mem_cons_self _ _)
    obtain ⟨cb1, hg1, hid1, hcd1⟩ := update_cashbook_frame now saveOk hid hcd hg
    obtain ⟨cb2, hg2, hid2, hcd2⟩ :=
      ih _ _ (fun c hc => hcalls c (List.mem_cons_of_mem _ hc)) hg1
    exact ⟨cb2, hg2, hid2.trans hid1, hcd2.trans hcd1⟩

/-- A concrete store holding one valid record under ID `"a"`,
with consistent metadata. -/
def cbA : Cashbook :=
  ⟨"a", "Rent", "", "Home", ⟨2024, 1, 1, 0, 0, 0, 0⟩, ⟨2024, 1, 1, 0, 0, 0, 0⟩,
   0, 0, "#3B82F6"⟩

def baseState : ManagerState := ⟨[("a", cbA)], ⟨1, ["a"], ["Home"], none⟩⟩

/-- C6 witness: the frame theorem applied to one concrete name-only
update of `baseState`. -/
theorem update_frame_witness :
    ∃ cb1,
      dictGet (runUpdates baseState "a"
          [({ name := some "Utilities" }, ⟨2024, 2, 1, 0, 0, 0, 0⟩, true)]).cashbooks "a"
        = some cb1 ∧ cb1.id = cbA.id ∧ cb1.created_date = cbA.created_date :=
  update_never_changes_id_created_date baseState "a" cbA
    [({ name := some "Utilities" }, ⟨2024, 2, 1, 0, 0, 0, 0⟩, true)]
    (by decide) (by decide)

/-- C6 counterexample: `update_cashbook` happily sets `id` and
`created_date` when the keyword arguments name them (`hasattr` lets
any real attribute through), so neither field is immutable under
arbitrary field changes. -/
theorem update_changes_id_and_created_date_counterexample :
    ((update_cashbook baseState "a" { created_date := some ⟨1999, 12, 31, 0, 0, 0, 0⟩ }
        ⟨2024, 2, 1, 0, 0, 0, 0⟩ true).2 = .ok true ∧
      (get_cashbook (update_cashbook baseState "a"
          { created_date := some ⟨1999, 12, 31, 0, 0, 0, 0⟩ }
          ⟨2024, 2, 1, 0, 0, 0, 0⟩ true).1 "a").map (fun cb => cb.created_date) =
        some ⟨1999, 12, 31, 0, 0, 0, 0⟩ ∧
      cbA.created_date ≠ ⟨1999, 12, 31, 0, 0, 0, 0⟩) ∧
    ((update_cashbook baseState "a" { id := some "hijacked" }
        ⟨2024, 2, 1, 0, 0, 0, 0⟩ true).2 = .ok true ∧
      (get_cashbook (update_cashbook baseState "a" { id := some "hijacked" }
          ⟨2024, 2, 1, 0, 0, 0, 0⟩ true).1 "a").map (fun cb => cb.id) = some "hijacked" ∧
      cbA.id ≠ "hijacked") := by
  constructor
  · refine ⟨by decide, by decide, by decide⟩
  · refine ⟨by decide, by decide, by decide⟩

/-- C3 (amended): when the field changes make the record invalid,
`update_cashbook` surfaces the `ValueError` and never reaches
`_save_data` (the result is the same whatever `saveOk` would be) — but
because the `setattr` loop mutated the stored record in place before
re-validation, the invalid, partially-updated record remains in the
in-memory store. -/
theorem update_validation_failure_behavior
    (s : ManagerState) (cashbook_id : String) (cb : Cashbook) (ch : FieldChanges)
    (now : PyDateTime) (saveOk : Bool) (e : PyError)
    (hg : dictGet s.cashbooks cashbook_id = some cb)
    (hpi : Cashbook.post_init { applyChanges cb ch with last_modified := now } = .error e) :
    update_cashbook s cashbook_id ch now saveOk =
      ({ s with cashbooks :=
          dictSet s.cashbooks cashbook_id { applyChanges cb ch with last_modified := now } },
       .error e) :=
  update_cashbook_invalid hg hpi saveOk

/-- The partially-applied (invalid) record a failed `name=""` update
leaves behind, and the store state holding it. -/
def invalidUpdatedRecord : Cashbook :=
  { applyChanges cbA { name := some "" } with last_modified := ⟨2024, 2, 1, 0, 0, 0, 0⟩ }

def invalidUpdatePost : ManagerState :=
  { baseState with cashbooks := dictSet baseState.cashbooks "a" invalidUpdatedRecord }

/-- C3 witness: the amended theorem at a concrete invalid update. -/
theorem update_validation_failure_witness :
    update_cashbook baseState "a" { name := some "" } ⟨2024, 2, 1, 0, 0, 0, 0⟩ true =
      (invalidUpdatePost, .error (.valueError "Cashbook name cannot be empty")) :=
  update_validation_failure_behavior baseState "a" cbA { name := some "" }
    ⟨2024, 2, 1, 0, 0, 0, 0⟩ true _ (by decide) (by decide)

/-- C3 counterexample: after the failed `update_cashbook(id, name="")`
call, the record retrievable from the store has the empty name — the
invalid value *was* admitted to the in-memory store, violating the
model invariant the claim asserts. -/
theorem update_admits_invalid_record_counterexample :
    (update_cashbook baseState "a" { name := some "" }
        ⟨2024, 2, 1, 0, 0, 0, 0⟩ true).2 =
      .error (.valueError "Cashbook name cannot be empty") ∧
    (get_cashbook (update_cashbook baseState "a" { name := some "" }
        ⟨2024, 2, 1, 0, 0, 0, 0⟩ true).1 "a").map (fun cb => cb.name) = some "" := by
  exact ⟨by decide, by decide⟩

/-! ## Save-failure behavior (C1) -/

theorem filter_eq_self_of_consistent {s : ManagerState}
    (hcons : updateMetadata s = s) :
    ∀ x ∈ s.metadata.recent_activity, (dictGet s.cashbooks x).isSome = true := by
  have hrec : List.filter (fun x => (dictGet s.cashbooks x).isSome)
      s.metadata.recent_activity = s.metadata.recent_activity :=
    congrArg (fun t => t.metadata.recent_activity) hcons
  exact fun x hx => List.filter_eq_self.mp hrec x hx

/-- C1 (amended): when `_save_data` fails, the failure always reaches
the caller as a `FileOperationError`; but only `create_cashbook` rolls
the in-memory state back — and its rollback is exact precisely under the
stated side conditions (metadata consistent, the generated ID fresh,
`recent_activity` below its 10-entry cap, so the truncation during the
create dropped nothing).  `update_cashbook` and `delete_cashbook`
re-raise without undoing any of their in-memory changes (see the
counterexample). -/
theorem save_failure_handling :
    (∀ (s : ManagerState) (n d c i : String) (now : PyDateTime) (cb : Cashbook),
      updateMetadata s = s →
      dictGet s.cashbooks i = none →
      i ∉ s.metadata.recent_activity →
      s.metadata.recent_activity.length < 10 →
      (newCashbook i n d c now).post_init = .ok cb →
      create_cashbook s n d c i now false =
        (s, .error (.fileOperationError "Failed to save cashbook data"))) ∧
    (∀ (s : ManagerState) (i : String) (ch : FieldChanges) (now : PyDateTime)
        (cb cb3 : Cashbook),
      dictGet s.cashbooks i = some cb →
      Cashbook.post_init { applyChanges cb ch with last_modified := now } = .ok cb3 →
      (update_cashbook s i ch now false).2 =
        .error (.fileOperationError "Failed to save cashbook updates")) ∧
    (∀ (s : ManagerState) (i : String) (cb : Cashbook),
      dictGet s.cashbooks i = some cb →
      (delete_cashbook s i false).2 =
        .error (.fileOperationError "Failed to save after deleting cashbook")) := by
  refine ⟨?_, ?_, ?_⟩
  · intro s n d c i now cb hcons hfresh hra hlen hpi
    have hlive := filter_eq_self_of_consistent hcons
    have hset : dictSet s.cashbooks i cb = s.cashbooks ++ [(i, cb)] := dictSet_fresh hfresh cb
    have htake : s.metadata.recent_activity.take 9 = s.metadata.recent_activity :=
      List.take_of_length_le (by omega)
    have hfilter : List.filter
        (fun x => (dictGet (s.cashbooks ++ [(i, cb)]) x).isSome)
        (i :: s.metadata.recent_activity) = i :: s.metadata.recent_activity := by
      rw [List.filter_cons_of_pos]
      · congr 1
        refine List.filter_eq_self.mpr fun x hx => ?_
        rw [dictGet_append_of_isSome (hlive x hx)]
        exact hlive x hx
      · simp [dictGet_append_fresh hfresh cb]
    have htake10 : List.take 10 (i :: s.metadata.recent_activity) =
        i :: s.metadata.recent_activity := by
      rw [show List.take 10 (i :: s.metadata.recent_activity) =
        i :: List.take 9 s.metadata.recent_activity from rfl, htake]
    simp only [create_cashbook, hpi, if_neg hra, hset, Bool.false_eq_true, if_false,
      updateMetadata]
    rw [htake10, hfilter, if_pos (List.mem_cons_self i _), pyRemove_cons_self,
      dictDel_append_fresh hfresh cb]
    conv_rhs => rw [← hcons]
    rfl
  · intro s i ch now cb cb3 hg hpi
    rw [update_cashbook_valid hg hpi false]
    rfl
  · intro s i cb hg
    simp [delete_cashbook, hg]

/-- C1 witness: the amended save-failure theorem at `baseState` — a
failed create leaves the state exactly as it was, and failed update /
delete calls report `FileOperationError`. -/
theorem save_failure_handling_witness :
    (create_cashbook baseState "Food" "" "" "id9" ⟨2024, 3, 1, 0, 0, 0, 0⟩ false =
      (baseState, .error (.fileOperationError "Failed to save cashbook data"))) ∧
    ((update_cashbook baseState "a" { name := some "Car" }
        ⟨2024, 3, 1, 0, 0, 0, 0⟩ false).2 =
      .error (.fileOperationError "Failed to save cashbook updates")) ∧
    ((delete_cashbook baseState "a" false).2 =
      .error (.fileOperationError "Failed to save after deleting cashbook")) :=
  ⟨save_failure_handling.1 baseState "Food" "" "" "id9" ⟨2024, 3, 1, 0, 0, 0, 0⟩
      (newCashbook "id9" "Food" "" "" ⟨2024, 3, 1, 0, 0, 0, 0⟩)
      (by decide) (by decide) (by decide) (by decide) (by decide),
   save_failure_handling.2.1 baseState "a" { name := some "Car" }
      ⟨2024, 3, 1, 0, 0, 0, 0⟩ cbA
      ({ applyChanges cbA { name := some "Car" } with
          last_modified := ⟨2024, 3, 1, 0, 0, 0, 0⟩ }) (by decide) (by decide),
   save_failure_handling.2.2 baseState "a" cbA (by decide)⟩

/-- C1 counterexample: a failed delete propagates the error but does
*not* roll back — the record is gone from the in-memory store while the
on-disk state still holds it, so the in-memory state diverges from what
is persisted. -/
theorem save_failure_rollback_counterexample :
    (delete_cashbook baseState "a" false).2 =
      .error (.fileOperationError "Failed to save after deleting cashbook") ∧
    (delete_cashbook baseState "a" false).1 ≠ baseState ∧
    get_cashbook (delete_cashbook baseState "a" false).1 "a" = none := by
  refine ⟨by decide, by decide, by decide⟩

/-! ## Load-time corruption handling (C5, `_load_data` /
`_handle_corrupted_data` / `_attempt_data_recovery`)

The on-disk world is a small file-system record; JSON parsing and
serialization of the two files are abstract parameters (`parseR` /
`parseM` / `renderR` / `renderM`), since the claims only depend on
whether parsing succeeds.  Back-up copies always succeed in this model
(the claim's scenario assumes a writable disk; a failed copy is only
warned about in the source). -/

structure FileSystem where
  cashbooksFile : Option String
  metadataFile : Option String
  corruptedBackups : List (String × String)
  deriving DecidableEq, Repr

/-- The per-entry decoding loop shared by `_load_data` and
`_attempt_data_recovery`: individually corrupt entries are skipped. -/
def loadCashbooksFromData (entries : List (String × CashbookDict)) :
    List (String × Cashbook) :=
  entries.foldl
    (fun acc kv =>
      match Cashbook.from_dict kv.2 with
      | .ok cb => acc ++ [(kv.1, cb)]
      | .error _ => acc) []

/-- The metadata half of `_load_data`: any read/parse failure falls
back to default metadata without raising. -/
def loadMetadataPart (parseM : String → Option CashbookMetadata) (fs : FileSystem) :
    CashbookMetadata :=
  match fs.metadataFile with
  | none => CashbookMetadata.default
  | some content => (parseM content).getD CashbookMetadata.default

/-- The `try` body of `_load_data`: a top-level parse failure of the
records file raises `DataCorruptionError`. -/
def loadDataTry (parseR : String → Option (List (String × CashbookDict)))
    (parseM : String → Option CashbookMetadata) (fs : FileSystem) :
    Except PyError ManagerState :=
  match fs.cashbooksFile with
  | none => .ok (updateMetadata ⟨[], loadMetadataPart parseM fs⟩)
  | some content =>
    match parseR content with
    | none => .error (.dataCorruptionError "Cashbooks file is corrupted")
    | some entries =>
      .ok (updateMetadata ⟨loadCashbooksFromData entries, loadMetadataPart parseM fs⟩)

/-- `_attempt_data_recovery`: re-read and re-parse the records file;
the line-by-line branch of the source is a no-op, so an unparseable
file recovers nothing. -/
def attemptDataRecovery (parseR : String → Option (List (String × CashbookDict)))
    (fs : FileSystem) : List (String × Cashbook) :=
  match fs.cashbooksFile with
  | none => []
  | some content =>
    match parseR content with
    | some entries => loadCashbooksFromData entries
    | none => []

/-- `_handle_corrupted_data`: copy the offending file(s) into the
`corrupted_backups` directory (names carry the `ts` timestamp), attempt
recovery, reset to recovered records and default metadata, recompute
metadata, and persist the recovered state. -/
def handleCorruptedData (parseR : String → Option (List (String × CashbookDict)))
    (renderR : List (String × Cashbook) → String)
    (renderM : CashbookMetadata → String)
    (fs : FileSystem) (ts : String) : ManagerState × FileSystem :=
  let fs1 := match fs.cashbooksFile with
    | some content =>
      { fs with corruptedBackups :=
          fs.corruptedBackups ++ [("cashbooks_corrupted_" ++ ts ++ ".json", content)] }
    | none => fs
  let fs2 := match fs.metadataFile with
    | some content =>
      { fs1 with corruptedBackups :=
          fs1.corruptedBackups ++ [("metadata_corrupted_" ++ ts ++ ".json", content)] }
    | none => fs1
  let recovered := attemptDataRecovery parseR fs
  let st := updateMetadata ⟨recovered, CashbookMetadata.default⟩
  let fs3 := { fs2 with
    cashbooksFile := some (renderR st.cashbooks),
    metadataFile := some (renderM st.metadata) }
  (st, fs3)

/-- `_load_data` as called by the constructor: every raised
`DataCorruptionError` / `FileOperationError` (and any unexpected
exception) is caught and routed to `_handle_corrupted_data`, so the
constructor itself never raises — the function is total. -/
def loadData (parseR : String → Option (List (String × CashbookDict)))
    (parseM : String → Option CashbookMetadata)
    (renderR : List (String × Cashbook) → String)
    (renderM : CashbookMetadata → String)
    (fs : FileSystem) (ts : String) : ManagerState × FileSystem :=
  match loadDataTry parseR parseM fs with
  | .ok st => (st, fs)
  | .error _ => handleCorruptedData parseR renderR renderM fs ts

/-- C5: if the records file exists but does not parse as JSON,
construction completes without an exception (`loadData` is total and
takes the recovery path), the store comes up with an empty record set
and default metadata, and a corrupted-backup entry holding the original
file content is written before the recovered state is persisted. -/
theorem corrupted_records_file_recovery
    (parseR : String → Option (List (String × CashbookDict)))
    (parseM : String → Option CashbookMetadata)
    (renderR : List (String × Cashbook) → String)
    (renderM : CashbookMetadata → String)
    (fs : FileSystem) (ts content : String)
    (hfile : fs.cashbooksFile = some content)
    (hbad : parseR content = none) :
    (loadData parseR parseM renderR renderM fs ts).1 = ⟨[], CashbookMetadata.default⟩ ∧
    ("cashbooks_corrupted_" ++ ts ++ ".json", content) ∈
      (loadData parseR parseM renderR renderM fs ts).2.corruptedBackups := by
  simp only [loadData, loadDataTry, hfile, hbad]
  constructor
  · simp only [handleCorruptedData, attemptDataRecovery, hfile, hbad]
    rfl
  · simp only [handleCorruptedData, hfile]
    cases fs.metadataFile <;> simp

/-- C5 witness: the recovery theorem at a concrete unparseable file. -/
theorem corrupted_records_file_recovery_witness :
    (loadData (fun _ => none) (fun _ => none) (fun _ => "") (fun _ => "")
        ⟨some "totally not json", none, []⟩ "20240101_000000").1 =
      ⟨[], CashbookMetadata.default⟩ ∧
    ("cashbooks_corrupted_20240101_000000.json", "totally not json") ∈
      (loadData (fun _ => none) (fun _ => none) (fun _ => "") (fun _ => "")
        ⟨some "totally not json", none, []⟩ "20240101_000000").2.corruptedBackups :=
  corrupted_records_file_recovery (fun _ => none) (fun _ => none) (fun _ => "")
    (fun _ => "") ⟨some "totally not json", none, []⟩ "20240101_000000"
    "totally not json" rfl rfl

/-! ## The caching layer (`src/performance_manager.py`, C7) -/

/-- The mutable state of a `LazyLoader`: the record cache keyed by ID,
the per-entry insertion timestamps, the TTL, and the batch-size
default.  Wall-clock time is an abstract tick counter (`now`). -/
structure CacheState where
  cache : List (String × Cashbook)
  cache_timestamps : List (String × Nat)
  cache_ttl : Nat
  now : Nat
  batch_size : Nat
  deriving DecidableEq, Repr

/-- `LazyLoader._get_cached_cashbook`: a hit within the TTL returns the
cached record; an expired or timestamp-less entry is evicted and
reported as a miss. -/
def getCachedCashbook (c : CacheState) (cashbook_id : String) :
    Option Cashbook × CacheState :=
  match dictGet c.cache cashbook_id with
  | none => (none, c)
  | some cb =>
    match dictGet c.cache_timestamps cashbook_id with
    | some t =>
      if c.now - t < c.cache_ttl then (some cb, c)
      else (none, { c with cache := dictDel c.cache cashbook_id,
                           cache_timestamps := dictDel c.cache_timestamps cashbook_id })
    | none => (none, { c with cache := dictDel c.cache cashbook_id,
                              cache_timestamps := dictDel c.cache_timestamps cashbook_id })

/-- `LazyLoader._cache_cashbook`: insert with the current timestamp;
past 100 entries, evict the 20 oldest-by-timestamp. -/
def cacheCashbook (c : CacheState) (cb : Cashbook) : CacheState :=
  let cache2 := dictSet c.cache cb.id cb
  let ts2 := dictSet c.cache_timestamps cb.id c.now
  if 100 < cache2.length then
    let oldest := (insertionSort (fun a b => decide (a.2 ≤ b.2)) ts2).take 20
    { c with
      cache := oldest.foldl (fun m kv => dictDel m kv.1) cache2,
      cache_timestamps := oldest.foldl (fun m kv => dictDel m kv.1) ts2 }
  else
    { c with cache := cache2, cache_timestamps := ts2 }

/-- The per-item loop of `get_cashbooks_batch`: cached copy if valid,
else cache the store's copy and return it. -/
def loadBatchCached : CacheState → List Cashbook → List Cashbook × CacheState
  | c, [] => ([], c)
  | c, cb :: rest =>
    match getCachedCashbook c cb.id with
    | (some cached, c1) =>
      let (tail, c2) := loadBatchCached c1 rest
      (cached :: tail, c2)
    | (none, c1) =>
      let c2 := cacheCashbook c1 cb
      let (tail, c3) := loadBatchCached c2 rest
      (cb :: tail, c3)

/-- `LazyLoader.get_cashbooks_batch(offset, limit)`:
slice the store's full sorted list, then serve each item through the
cache. -/
def get_cashbooks_batch (mgr : ManagerState) (c : CacheState) (offset : Nat)
    (limit : Option Nat) : List Cashbook × CacheState :=
  let lim := limit.getD c.batch_size
  loadBatchCached c (((get_all_cashbooks mgr).drop offset).take lim)

/-- The value-level rendering of the Python aliasing invariant: the
cache stores references to the manager's own record objects, so every
cached entry coincides with the store's record under that ID.  Every
reachable cache state satisfies this (see the preservation lemmas). -/
def CacheCoherent (mgr : ManagerState) (c : CacheState) : Prop :=
  ∀ kv ∈ c.cache, dictGet mgr.cashbooks kv.1 = some kv.2

/-- The store's dict is well-formed: keys are unique and each record's
`id` field equals its key (as `create_cashbook` guarantees). -/
def StoreKeysOk (mgr : ManagerState) : Prop :=
  (mgr.cashbooks.map Prod.fst).Nodup ∧ ∀ kv ∈ mgr.cashbooks, kv.2.id = kv.1

theorem dictGet_mem {α : Type} {m : List (String × α)} {k : String} {v : α}
    (h : dictGet m k = some v) : (k, v) ∈ m := by
  induction m with
  | nil => simp [dictGet] at h
  | cons kv rest ih =>
    obtain ⟨k1, v1⟩ := kv
    rw [dictGet] at h
    by_cases hk : k1 = k
    · rw [if_pos hk] at h
      cases h
      exact hk ▸ List.mem_cons_self _ _
    · exact List.mem_cons_of_mem _ (ih (by rwa [if_neg hk] at h))

theorem mem_dictDel {α : Type} {m : List (String × α)} {k : String} {kv : String × α}
    (h : kv ∈ dictDel m k) : kv ∈ m := by
  induction m with
  | nil => simp [dictDel] at h
  | cons kv1 rest ih =>
    obtain ⟨k1, v1⟩ := kv1
    rw [dictDel] at h
    by_cases hk : k1 = k
    · rw [if_pos hk] at h
      exact List.mem_cons_of_mem _ h
    · rw [if_neg hk] at h
      rcases List.mem_cons.mp h with h | h
      · exact h ▸ List.mem_cons_self _ _
      · exact List.mem_cons_of_mem _ (ih h)

theorem mem_dictSet {α : Type} {m : List (String × α)} {k : String} {v : α}
    {kv : String × α} (h : kv ∈ dictSet m k v) : kv = (k, v) ∨ kv ∈ m := by
  induction m with
  | nil => simpa [dictSet] using h
  | cons kv1 rest ih =>
    obtain ⟨k1, v1⟩ := kv1
    rw [dictSet] at h
    by_cases hk : k1 = k
    · rw [if_pos hk] at h
      rcases List.mem_cons.mp h with h | h
      · exact Or.inl h
      · exact Or.inr (List.mem_cons_of_mem _ h)
    · rw [if_neg hk] at h
      rcases List.mem_cons.mp h with h | h
      · exact Or.inr (h ▸ List.mem_cons_self _ _)
      · rcases ih h with h | h
        · exact Or.inl h
        · exact Or.inr (List.mem_cons_of_mem _ h)

theorem mem_foldl_dictDel {α : Type} {l : List (String × Nat)}
    {m : List (String × α)} {kv : String × α}
    (h : kv ∈ l.foldl (fun m kv1 => dictDel m kv1.1) m) : kv ∈ m := by
  induction l generalizing m with
  | nil => exact h
  | cons x xs ih => exact mem_dictDel (ih h)

theorem getCachedCashbook_coherent {mgr : ManagerState} {c : CacheState}
    (hc : CacheCoherent mgr c) (cashbook_id : String) :
    CacheCoherent mgr (getCachedCashbook c cashbook_id).2 := by
  rw [getCachedCashbook]
  cases hg : dictGet c.cache cashbook_id with
  | none => exact hc
  | some cb =>
    cases ht : dictGet c.cache_timestamps cashbook_id with
    | some t =>
      by_cases hexp : c.now - t < c.cache_ttl
      · simpa [hexp] using hc
      · simp only [if_neg hexp]
        exact fun kv hkv => hc kv (mem_dictDel hkv)
    | none => exact fun kv hkv => hc kv (mem_dictDel hkv)

theorem getCachedCashbook_sound {mgr : ManagerState} {c : CacheState} {cb : Cashbook}
    {cashbook_id : String} (hc : CacheCoherent mgr c)
    (h : (getCachedCashbook c cashbook_id).1 = some cb) :
    dictGet mgr.cashbooks cashbook_id = some cb := by
  rw [getCachedCashbook] at h
  cases hg : dictGet c.cache cashbook_id with
  | none => simp [hg] at h
  | some cb1 =>
    have hmem := hc _ (dictGet_mem hg)
    cases ht : dictGet c.cache_timestamps cashbook_id with
    | some t =>
      by_cases hexp : c.now - t < c.cache_ttl
      · simp only [hg, ht, if_pos hexp] at h
        rw [← h]
        exact hmem
      · simp [hg, ht, hexp] at h
    | none => simp [hg, ht] at h

theorem cacheCashbook_coherent {mgr : ManagerState} {c : CacheState} {cb : Cashbook}
    (hc : CacheCoherent mgr c) (hcb : dictGet mgr.cashbooks cb.id = some cb) :
    CacheCoherent mgr (cacheCashbook c cb) := by
  have hins : ∀ kv ∈ dictSet c.cache cb.id cb, dictGet mgr.cashbooks kv.1 = some kv.2 := by
    intro kv hkv
    rcases mem_dictSet hkv with h | h
    · rw [h]; exact hcb
    · exact hc kv h
  rw [cacheCashbook]
  by_cases hlen : 100 < (dictSet c.cache cb.id cb).length
  · simp only [if_pos hlen]
    exact fun kv hkv => hins kv (mem_foldl_dictDel hkv)
  · simp only [if_neg hlen]
    exact hins

/-- The cached per-item loop returns exactly the batch it was given, on
any coherent cache state. -/
theorem loadBatchCached_eq {mgr : ManagerState} :
    ∀ (batch : List Cashbook) (c : CacheState),
    CacheCoherent mgr c →
    (∀ cb ∈ batch, dictGet mgr.cashbooks cb.id = some cb) →
    (loadBatchCached c batch).1 = batch := by
  intro batch
  induction batch with
  | nil => intro c _ _; rfl
  | cons cb rest ih =>
    intro c hc hbatch
    rw [loadBatchCached]
    cases hget : getCachedCashbook c cb.id with
    | mk cached c1 =>
      have hc1 : CacheCoherent mgr c1 := by
        have := getCachedCashbook_coherent hc cb.id
        rwa [hget] at this
      cases cached with
      | some cbv =>
        have hsound : dictGet mgr.cashbooks cb.id = some cbv := by
          apply getCachedCashbook_sound hc
          rw [hget]
        have hcb : cbv = cb := by
          have := hbatch cb (List.mem_cons_self _ _)
          rw [this] at hsound
          exact (Option.some.injEq _ _ ▸ hsound.symm : _)
        simp only
        rw [ih c1 hc1 (fun x hx => hbatch x (List.mem_cons_of_mem _ hx)), hcb]
      | none =>
        have hc2 : CacheCoherent mgr (cacheCashbook c1 cb) :=
          cacheCashbook_coherent hc1 (hbatch cb (List.mem_cons_self _ _))
        simp only
        rw [ih _ hc2 (fun x hx => hbatch x (List.mem_cons_of_mem _ hx))]

theorem mem_insertSorted {α : Type} (le : α → α → Bool) (x y : α) (l : List α) :
    y ∈ insertSorted le x l ↔ y = x ∨ y ∈ l := by
  induction l with
  | nil => simp [insertSorted]
  | cons z zs ih =>
    rw [insertSorted]
    by_cases hle : le x z = true
    · simp [hle]
    · simp only [if_neg hle, List.mem_cons, ih]
      tauto

theorem mem_insertionSort {α : Type} (le : α → α → Bool) (y : α) (l : List α) :
    y ∈ insertionSort le l ↔ y ∈ l := by
  induction l with
  | nil => simp [insertionSort]
  | cons z zs ih => rw [insertionSort, mem_insertSorted, ih, List.mem_cons]

/-- In a well-formed store dict, every value is retrievable under its
own `id`. -/
theorem mem_values_dictGet {m : List (String × Cashbook)}
    (hnodup : (m.map Prod.fst).Nodup) (hids : ∀ kv ∈ m, kv.2.id = kv.1)
    {cb : Cashbook} (h : cb ∈ m.map Prod.snd) :
    dictGet m cb.id = some cb := by
  induction m with
  | nil => simp at h
  | cons kv rest ih =>
    obtain ⟨k1, v1⟩ := kv
    rw [List.map_cons, List.mem_cons] at h
    rw [dictGet]
    rcases h with h | h
    · subst h
      rw [if_pos (hids (k1, cb) (List.mem_cons_self _ _)).symm]
    · have hk : k1 ≠ cb.id := by
        intro hcontra
        obtain ⟨kv2, hkv2, hsnd⟩ := List.mem_map.mp h
        have hkey : kv2.1 = cb.id := by
          rw [← hids kv2 (List.mem_cons_of_mem _ hkv2), hsnd]
        have hk1mem : k1 ∈ rest.map Prod.fst := by
          rw [hcontra, ← hkey]
          exact List.mem_map_of_mem Prod.fst hkv2
        rw [List.map_cons] at hnodup
        exact (List.nodup_cons.mp hnodup).1 hk1mem
      rw [if_neg hk]
      exact ih ((List.nodup_cons.mp (List.map_cons _ _ _ ▸ hnodup)).2)
        (fun kv2 hkv2 => hids kv2 (List.mem_cons_of_mem _ hkv2)) h

/-- C7: on a well-formed store and any coherent cache state (coherence
is what the Python aliasing guarantees: the cache holds the manager's
own record objects), `get_cashbooks_batch(offset, limit)` returns
exactly `get_all_cashbooks()[offset : offset + limit]` — same records,
same order, whatever the cache currently contains and whatever TTL
expiries or evictions happen along the way. -/
theorem get_cashbooks_batch_matches_store (mgr : ManagerState) (c : CacheState)
    (offset limit : Nat) (hkeys : StoreKeysOk mgr) (hcoh : CacheCoherent mgr c) :
    (get_cashbooks_batch mgr c offset (some limit)).1 =
      ((get_all_cashbooks mgr).drop offset).take limit := by
  rw [get_cashbooks_batch]
  refine loadBatchCached_eq _ c hcoh ?_
  intro cb hcb
  have hall : cb ∈ get_all_cashbooks mgr :=
    (List.drop_subset _ _) ((List.take_subset _ _) hcb)
  exact mem_values_dictGet hkeys.1 hkeys.2 ((mem_insertionSort _ _ _).mp hall)

/-- C7 witness: a concrete store and a concrete non-empty cache (one
fresh entry), batch equal to the slice. -/
theorem get_cashbooks_batch_witness :
    (get_cashbooks_batch baseState ⟨[("a", cbA)], [("a", 0)], 300, 10, 10⟩
        0 (some 5)).1 =
      ((get_all_cashbooks baseState).drop 0).take 5 :=
  get_cashbooks_batch_matches_store baseState ⟨[("a", cbA)], [("a", 0)], 300, 10, 10⟩
    0 5 (by unfold StoreKeysOk; exact ⟨by decide, by decide⟩)
    (by unfold CacheCoherent; decide)

/-! ## Performance instrumentation (C9) and pagination (C10) -/

/-- A `PerformanceMetrics` entry.  The `time.perf_counter()` values are
abstract ticks; `duration = end - start`. -/
structure PerfMetric where
  operation_name : String
  start_time : Nat
  end_time : Nat
  duration : Nat
  items_processed : Option Nat
  deriving DecidableEq, Repr

/-- The success path of `PerformanceMonitor.measure_operation`: append
the metric, then keep only the last 100 entries. -/
def recordMetricCapped (metrics : List PerfMetric) (m : PerfMetric) : List PerfMetric :=
  let metrics2 := metrics ++ [m]
  if 100 < metrics2.length then metrics2.drop (metrics2.length - 100) else metrics2

/-- The failure path of `measure_operation`, and the direct
`self.performance_monitor.metrics.append(metric)` calls in
`search_cashbooks` and `get_recent_cashbooks_optimized`: a plain
append, with no truncation. -/
def recordMetricUncapped (metrics : List PerfMetric) (m : PerfMetric) : List PerfMetric :=
  metrics ++ [m]

/-- Python `str.lower()` (ASCII). -/
def pyLower (s : String) : String := ⟨s.data.map Char.toLower⟩

def isPrefixOfChars : List Char → List Char → Bool
  | [], _ => true
  | _ :: _, [] => false
  | a :: as, b :: bs => a = b && isPrefixOfChars as bs

/-- Python `needle in hay` on strings (substring containment). -/
def isInfixOfChars (needle : List Char) : List Char → Bool
  | [] => needle.isEmpty
  | b :: bs => isPrefixOfChars needle (b :: bs) || isInfixOfChars needle bs

/-- The match test of `search_cashbooks`: the lowered query occurs in
the lowered name, description, or category. -/
def cashbookMatches (q : String) (cb : Cashbook) : Bool :=
  isInfixOfChars q.data (pyLower cb.name).data ||
  isInfixOfChars q.data (pyLower cb.description).data ||
  isInfixOfChars q.data (pyLower cb.category).data

/-- The scan loop of `search_cashbooks`: append each match, stopping
once `limit` results have been collected. -/
def searchLoop (q : String) (limit : Nat) : List Cashbook → List Cashbook → List Cashbook
  | [], acc => acc
  | cb :: rest, acc =>
    if cashbookMatches q cb then
      let acc2 := acc ++ [cb]
      if limit ≤ acc2.length then acc2 else searchLoop q limit rest acc2
    else searchLoop q limit rest acc

/-- `PerformanceOptimizedManager.search_cashbooks`: an empty or
whitespace-only query returns `[]` *before* any metric is recorded;
otherwise the scan runs and one `search_cashbooks` metric is appended
directly (no truncation). -/
def search_cashbooks (mgr : ManagerState) (metrics : List PerfMetric) (query : String)
    (limit : Nat) (t1 t2 : Nat) : List Cashbook × List PerfMetric :=
  if pyStrip query = "" then ([], metrics)
  else
    let q := pyLower (pyStrip query)
    let results := searchLoop q limit (get_all_cashbooks mgr) []
    (results,
     recordMetricUncapped metrics ⟨"search_cashbooks", t1, t2, t2 - t1, some results.length⟩)

/-- `PerformanceOptimizedManager.get_recent_cashbooks_optimized`: the
store's recent list for small limits, the cached batch for large ones;
one metric appended directly (no truncation). -/
def get_recent_cashbooks_optimized (mgr : ManagerState) (c : CacheState)
    (metrics : List PerfMetric) (limit : Nat) (t1 t2 : Nat) :
    List Cashbook × CacheState × List PerfMetric :=
  let rc := if limit ≤ 10 then (get_recent_cashbooks mgr limit, c)
    else get_cashbooks_batch mgr c 0 (some limit)
  (rc.1, rc.2,
   recordMetricUncapped metrics
     ⟨"get_recent_cashbooks_optimized", t1, t2, t2 - t1, some rc.1.length⟩)

/-- C9 (amended): only the success path of the `measure_operation`
decorator enforces the 100-entry rolling window (and it does so
unconditionally); the decorator's failure path and the directly
instrumented operations (`search_cashbooks`,
`get_recent_cashbooks_optimized`) append without truncating, so each of
those grows the retained list by exactly one — past 100 if it was
already at 100 (see the counterexample). -/
theorem metrics_window_behavior :
    (∀ (metrics : List PerfMetric) (m : PerfMetric),
      (recordMetricCapped metrics m).length ≤ 100) ∧
    (∀ (metrics : List PerfMetric) (m : PerfMetric),
      (recordMetricUncapped metrics m).length = metrics.length + 1) ∧
    (∀ (mgr : ManagerState) (metrics : List PerfMetric) (query : String)
        (limit t1 t2 : Nat),
      pyStrip query ≠ "" →
      (search_cashbooks mgr metrics query limit t1 t2).2.length = metrics.length + 1) ∧
    (∀ (mgr : ManagerState) (c : CacheState) (metrics : List PerfMetric)
        (limit t1 t2 : Nat),
      (get_recent_cashbooks_optimized mgr c metrics limit t1 t2).2.2.length =
        metrics.length + 1) := by
  refine ⟨?_, ?_, ?_, ?_⟩
  · intro metrics m
    rw [recordMetricCapped]
    by_cases h : 100 < (metrics ++ [m]).length
    · simp only [if_pos h, List.length_drop]
      omega
    · simp only [if_neg h]
      omega
  · intro metrics m
    simp [recordMetricUncapped]
  · intro mgr metrics query limit t1 t2 hq
    simp [search_cashbooks, hq, recordMetricUncapped]
  · intro mgr c metrics limit t1 t2
    simp [get_recent_cashbooks_optimized, recordMetricUncapped]

/-- C9 witness: the window behavior at concrete inputs — a capped
recording on a 100-entry list stays at 100, and a concrete non-empty
search appends its metric. -/
theorem metrics_window_behavior_witness :
    (recordMetricCapped (List.replicate 100 ⟨"op", 0, 1, 1, none⟩)
        ⟨"op", 1, 2, 1, none⟩).length ≤ 100 ∧
    (search_cashbooks baseState (List.replicate 100 ⟨"op", 0, 1, 1, none⟩)
        "rent" 20 0 1).2.length = 101 := by
  constructor
  · exact metrics_window_behavior.1 _ _
  · have := metrics_window_behavior.2.2.1 baseState
      (List.replicate 100 ⟨"op", 0, 1, 1, none⟩) "rent" 20 0 1 (by decide)
    rw [this]
    decide

/-- A run of `n` instrumented (non-empty-query) search operations,
threading the retained metric list. -/
def repeatedSearchMetrics : Nat → List PerfMetric
  | 0 => []
  | n + 1 =>
    (search_cashbooks baseState (repeatedSearchMetrics n) "rent" 20 n (n + 1)).2

set_option maxRecDepth 4000 in
/-- C9 counterexample: after the 101st instrumented search operation
completes (each one succeeding), the retained list holds 101 > 100
measurements — the rolling window does not bound the directly
instrumented operations. -/
theorem metrics_window_counterexample :
    (repeatedSearchMetrics 101).length = 101 ∧ 100 < 101 := by
  constructor
  · decide
  · decide

/-- Python `//` on non-negative integers: raises `ZeroDivisionError`
when the divisor is zero. -/
def pyFloorDiv (a b : Nat) : Except PyError Nat :=
  if b = 0 then .error .zeroDivisionError else .ok (a / b)

structure PaginationInfo where
  current_page : Nat
  page_size : Nat
  total_pages : Nat
  total_count : Nat
  has_next : Bool
  has_prev : Bool
  start_index : Nat
  end_index : Nat
  deriving DecidableEq, Repr

structure PaginatedResult where
  cashbooks : List Cashbook
  pagination : PaginationInfo
  is_large_dataset : Bool
  deriving DecidableEq, Repr

/-- `PerformanceOptimizedManager.get_all_cashbooks_paginated`: batch
first, then the unguarded `(total_count + page_size - 1) // page_size`.
The `large_dataset_threshold` of the source is 50. -/
def get_all_cashbooks_paginated (mgr : ManagerState) (c : CacheState)
    (page page_size : Nat) : Except PyError (PaginatedResult × CacheState) :=
  let offset := page * page_size
  let total_count := mgr.cashbooks.length
  let bc := get_cashbooks_batch mgr c offset (some page_size)
  match pyFloorDiv (total_count + page_size - 1) page_size with
  | .error e => .error e
  | .ok total_pages =>
    .ok ({ cashbooks := bc.1,
           pagination :=
             { current_page := page, page_size := page_size,
               total_pages := total_pages, total_count := total_count,
               has_next := decide ((page : Int) < (total_pages : Int) - 1),
               has_prev := decide (0 < page),
               start_index := offset,
               end_index := min (offset + page_size) total_count },
           is_large_dataset := decide (50 < total_count) }, bc.2)

/-- C10: pagination is total exactly on positive page sizes — for every
`page_size ≥ 1` it returns (without error) a result whose
`total_pages` is the ceiling of `total_count / page_size`, while
`page_size = 0` always fails with `ZeroDivisionError` from the
unguarded integer division. -/
theorem pagination_requires_positive_page_size :
    (∀ (mgr : ManagerState) (c : CacheState) (page page_size : Nat),
      1 ≤ page_size →
      ∃ r, get_all_cashbooks_paginated mgr c page page_size = .ok r ∧
        r.1.pagination.total_pages = mgr.cashbooks.length ⌈/⌉ page_size ∧
        r.1.pagination.total_count = mgr.cashbooks.length) ∧
    (∀ (mgr : ManagerState) (c : CacheState) (page : Nat),
      get_all_cashbooks_paginated mgr c page 0 = .error .zeroDivisionError) := by
  constructor
  · intro mgr c page page_size hps
    have hz : page_size ≠ 0 := by omega
    cases heq : get_all_cashbooks_paginated mgr c page page_size with
    | error e =>
      simp only [get_all_cashbooks_paginated, pyFloorDiv, if_neg hz] at heq
      cases heq
    | ok r =>
      simp only [get_all_cashbooks_paginated, pyFloorDiv, if_neg hz,
        Except.ok.injEq] at heq
      refine ⟨r, rfl, ?_, ?_⟩
      · rw [← heq, Nat.ceilDiv_eq_add_pred_div]
      · rw [← heq]
  · intro mgr c page
    rw [get_all_cashbooks_paginated]
    simp [pyFloorDiv]

/-- C10 witness: a positive page size succeeds with the right ceiling,
and page size 0 raises, at concrete inputs. -/
theorem pagination_witness :
    (∃ r, get_all_cashbooks_paginated baseState
        ⟨[], [], 300, 0, 10⟩ 0 25 = .ok r ∧
      r.1.pagination.total_pages = baseState.cashbooks.length ⌈/⌉ 25 ∧
      r.1.pagination.total_count = baseState.cashbooks.length) ∧
    get_all_cashbooks_paginated baseState ⟨[], [], 300, 0, 10⟩ 3 0 =
      .error .zeroDivisionError :=
  ⟨pagination_requires_positive_page_size.1 baseState ⟨[], [], 300, 0, 10⟩ 0 25
      (by decide),
   pagination_requires_positive_page_size.2 baseState ⟨[], [], 300, 0, 10⟩ 3⟩
